import Mathlib

/-!
Verification development for the repository 64PJ1.0 (src/PJEMU64.cpp).

The C++ source is a single file: a tiny feed-forward neural network
(classes `Neuron`, `NeuralNetwork`), a mobile sprite agent (`Unit`), and
an SDL game loop (`Game`, `main`).  Below, each C++ class and member
function is translated into a Lean definition over exact reals (the C++
`float` arithmetic is modelled by `ℝ`).  Randomness (std::mt19937 +
uniform_real_distribution) is modelled by an explicit stream of draws
passed to the constructors; SDL backend calls (window, renderer,
textures, rendering) carry no simulation state and are modelled by
booleans / omitted where they cannot affect the simulation state.
-/

namespace PJ

/-- The C++ class `Neuron` (PJEMU64.cpp lines 11-35): a weight vector and a
scalar bias. -/
structure Neuron where
  weights : List ℝ
  bias : ℝ

/-- The constructor `Neuron::Neuron(int inputs)` (lines 17-26).  The member
initializer list sets `bias(0.0f)`; the body resizes `weights` to `inputs`
and assigns each entry the next value of a fresh uniform random source
`dis(gen)`.  The random source is modelled by the draw stream `draw`:
weight `i` receives draw number `i`. -/
def Neuron.create (inputs : ℕ) (draw : ℕ → ℝ) : Neuron :=
  { weights := (List.range inputs).map draw, bias := 0 }

/-- `Neuron::activate` (lines 28-34), modelled as the C++ member call: it is
declared non-const in the source, so the model returns the value together
with the post-call object state.  The body is
`sum = bias; for (i = 0; i < inputs.size(); i++) sum += inputs[i]*weights[i];
return tanh(sum);` — the loop runs over the INPUT's indices and never
touches the fields, so the object comes back unchanged.  An index `i`
beyond `weights.size()` is out-of-bounds (undefined behaviour) in C++;
the model reads `0` there (`List.getD`), which agrees with the source on
every defined-behaviour call. -/
noncomputable def Neuron.activateM (n : Neuron) (inputs : List ℝ) : ℝ × Neuron :=
  (Real.tanh (n.bias + ∑ i ∈ Finset.range inputs.length,
      inputs.getD i 0 * n.weights.getD i 0), n)

/-- The value computed by `Neuron::activate` (first component of the member
call). -/
noncomputable def Neuron.activate (n : Neuron) (inputs : List ℝ) : ℝ :=
  (n.activateM inputs).1

/-- The C++ class `NeuralNetwork` (lines 37-64): a list of layers, each a
list of `Neuron`s. -/
structure NeuralNetwork where
  layers : List (List Neuron)

/-- The constructor `NeuralNetwork::NeuralNetwork(topology)` (lines 42-52):
for each `i` from `1` to `topology.size()-1` it builds a layer of
`topology[i]` neurons, each constructed with `numInputs = topology[i-1]`.
`draw i j` is the fresh random stream used by neuron `j` of layer `i`
(each C++ `Neuron` constructor makes its own `std::random_device` /
`mt19937`). -/
def NeuralNetwork.create (topology : List ℕ) (draw : ℕ → ℕ → ℕ → ℝ) : NeuralNetwork :=
  { layers := (List.range (topology.length - 1)).map fun i =>
      (List.range (topology.getD (i + 1) 0)).map fun j =>
        Neuron.create (topology.getD i 0) (draw i j) }

/-- The inner loop of `feedForward` (lines 57-59): one layer's outputs,
threading each neuron's (unchanged) post-call state. -/
noncomputable def layerActM : List Neuron → List ℝ → List ℝ × List Neuron
  | [], _ => ([], [])
  | n :: rest, ins =>
    ((n.activateM ins).1 :: (layerActM rest ins).1,
     (n.activateM ins).2 :: (layerActM rest ins).2)

/-- The outer loop of `feedForward` (lines 55-61): each layer's output
vector becomes the next layer's input. -/
noncomputable def layersActM : List (List Neuron) → List ℝ → List ℝ × List (List Neuron)
  | [], ins => (ins, [])
  | l :: rest, ins =>
    ((layersActM rest (layerActM l ins).1).1,
     (layerActM l ins).2 :: (layersActM rest (layerActM l ins).1).2)

/-- `NeuralNetwork::feedForward` (lines 54-63) as the member call: result
value together with the post-call network state. -/
noncomputable def NeuralNetwork.feedForwardM (net : NeuralNetwork) (inputs : List ℝ) :
    List ℝ × NeuralNetwork :=
  ((layersActM net.layers inputs).1, ⟨(layersActM net.layers inputs).2⟩)

/-- The value returned by `NeuralNetwork::feedForward`. -/
noncomputable def NeuralNetwork.feedForward (net : NeuralNetwork) (inputs : List ℝ) : List ℝ :=
  (net.feedForwardM inputs).1

/-! ### Helper lemmas about the network model -/

/-- `Real.tanh` stays strictly below `1`. -/
lemma tanh_lt_one (x : ℝ) : Real.tanh x < 1 := by
  rw [Real.tanh_eq_sinh_div_cosh, div_lt_one (Real.cosh_pos x)]
  exact Real.sinh_lt_cosh x

/-- `Real.tanh` stays strictly above `-1`. -/
lemma neg_one_lt_tanh (x : ℝ) : -1 < Real.tanh x := by
  rw [Real.tanh_eq_sinh_div_cosh, lt_div_iff₀ (Real.cosh_pos x)]
  have h := Real.sinh_lt_cosh (-x)
  rw [Real.sinh_neg, Real.cosh_neg] at h
  linarith

/-- A layer's member loop returns the mapped activations and leaves every
neuron unchanged. -/
lemma layerActM_eq (l : List Neuron) (ins : List ℝ) :
    layerActM l ins = (l.map fun n => n.activate ins, l) := by
  induction l with
  | nil => rfl
  | cons n rest ih => simp [layerActM, ih, Neuron.activate, Neuron.activateM]

/-- The layer loop returns the foldl of mapped activations and leaves the
layer list unchanged. -/
lemma layersActM_eq (ls : List (List Neuron)) (ins : List ℝ) :
    layersActM ls ins =
      (ls.foldl (fun acc layer => layer.map fun n => n.activate acc) ins, ls) := by
  induction ls generalizing ins with
  | nil => rfl
  | cons l rest ih => simp [layersActM, layerActM_eq, ih]

/-- Pure form of `feedForward`: a left fold of layer maps. -/
lemma feedForward_eq_foldl (net : NeuralNetwork) (inputs : List ℝ) :
    net.feedForward inputs =
      net.layers.foldl (fun acc layer => layer.map fun n => n.activate acc) inputs := by
  simp [NeuralNetwork.feedForward, NeuralNetwork.feedForwardM, layersActM_eq]

/-! ### The game part of the source: `Unit`, `Game`, `main` -/

/-- `SDL_Rect`: integer position and size. -/
structure Rect where
  x : Int
  y : Int
  w : Int
  h : Int

/-- C truncation toward zero, modelling `static_cast<int>` on a float. -/
noncomputable def truncToInt (r : ℝ) : Int :=
  if 0 ≤ r then ⌊r⌋ else -⌊-r⌋

/-- `atan2f(y, x)`: the angle of the point `(x, y)`, modelled by the
argument of the complex number `x + y·i`. -/
noncomputable def atan2 (y x : ℝ) : ℝ :=
  Complex.arg ⟨x, y⟩

/-- The C++ class `Unit` (lines 67-140).  The SDL texture pointer carries
no simulation state; whether the BMP load succeeded is kept as the
boolean `hasTexture` (it only selects the render path). -/
structure Unit where
  rect : Rect
  hasTexture : Bool
  brain : NeuralNetwork
  x : ℝ
  y : ℝ
  speed : ℝ

/-- The constructor `Unit::Unit(startX, startY, renderer, imagePath)`
(lines 76-89): `brain({4, 6, 2})`, `x(startX)`, `y(startY)`, `speed(2.0f)`,
`rect = {int(x), int(y), 40, 40}`; the texture is loaded from the image
path (`texOk` says whether `SDL_LoadBMP` + texture creation succeeded). -/
def Unit.create (startX startY : Int) (texOk : Bool) (draw : ℕ → ℕ → ℕ → ℝ) : Unit :=
  { rect := ⟨startX, startY, 40, 40⟩
    hasTexture := texOk
    brain := NeuralNetwork.create [4, 6, 2] draw
    x := (startX : ℝ)
    y := (startY : ℝ)
    speed := 2 }

/-- Lines 99-110 of `Unit::update`: the input vector handed to the
network: `{distance/800, angle/π, speed/5, 0}` with
`distance = sqrtf(dx*dx + dy*dy)`, `angle = atan2f(dy, dx)`,
`dx = target.x - x`, `dy = target.y - y`. -/
noncomputable def Unit.nnInputs (u : Unit) (target : Int × Int) : List ℝ :=
  [Real.sqrt (((target.1 : ℝ) - u.x) * ((target.1 : ℝ) - u.x) +
      ((target.2 : ℝ) - u.y) * ((target.2 : ℝ) - u.y)) / 800,
   atan2 ((target.2 : ℝ) - u.y) ((target.1 : ℝ) - u.x) / Real.pi,
   u.speed / 5,
   0]

/-- Line 114 of `Unit::update`: `speed = outputs[0] * 5.0f` (the value the
speed field holds for the rest of the step). -/
noncomputable def Unit.newSpeed (u : Unit) (target : Int × Int) : ℝ :=
  (u.brain.feedForward (u.nnInputs target)).getD 0 0 * 5

/-- Line 115 of `Unit::update`: `direction = outputs[1] * M_PI`. -/
noncomputable def Unit.newDirection (u : Unit) (target : Int × Int) : ℝ :=
  (u.brain.feedForward (u.nnInputs target)).getD 1 0 * Real.pi

/-- Line 118 of `Unit::update`: the integrated x before the bound checks,
`x + cosf(direction) * speed`. -/
noncomputable def Unit.rawX (u : Unit) (target : Int × Int) : ℝ :=
  u.x + Real.cos (u.newDirection target) * u.newSpeed target

/-- Line 119 of `Unit::update`: the integrated y before the bound checks,
`y + sinf(direction) * speed`. -/
noncomputable def Unit.rawY (u : Unit) (target : Int × Int) : ℝ :=
  u.y + Real.sin (u.newDirection target) * u.newSpeed target

/-- `Unit::update(const SDL_Point& target)` (lines 97-130): feed the input
vector to the network, set `speed = outputs[0]*5`,
`direction = outputs[1]*π`, integrate `x += cos(direction)*speed`,
`y += sin(direction)*speed` (the raw values above), clamp `x` into
`[0, 800 - rect.w]` and `y` into `[0, 600 - rect.h]` by the four
sequential `if`s of lines 122-125, and refresh the integer `rect`
position. -/
noncomputable def Unit.update (u : Unit) (target : Int × Int) : Unit :=
  let x1 := u.rawX target
  let y1 := u.rawY target
  let x2 := if x1 < 0 then 0 else x1
  let x3 := if x2 > 800 - (u.rect.w : ℝ) then 800 - (u.rect.w : ℝ) else x2
  let y2 := if y1 < 0 then 0 else y1
  let y3 := if y2 > 600 - (u.rect.h : ℝ) then 600 - (u.rect.h : ℝ) else y2
  { u with
    x := x3
    y := y3
    speed := u.newSpeed target
    rect := { u.rect with x := truncToInt x3, y := truncToInt y3 } }

/-- The SDL events the source reacts to (lines 212-222): `SDL_QUIT`,
`SDL_MOUSEBUTTONDOWN` with its integer coordinates, and anything else. -/
inductive Event where
  | quit : Event
  | mouseDown (x y : Int) : Event
  | other : Event
deriving DecidableEq

/-- True exactly on a mouse-button-down event. -/
def Event.isPress : Event → Bool
  | .mouseDown _ _ => true
  | _ => false

/-- The C++ class `Game` (lines 143-263).  The window and renderer
pointers carry no simulation state; `hasTargetTexture` records whether
the target BMP loaded (render path only). -/
structure Game where
  running : Bool
  units : List Unit
  target : Int × Int
  hasTargetTexture : Bool

/-- The constructor `Game::Game()` (lines 153-155): not running, no units,
no target texture, `target = {400, 300}`. -/
def Game.new : Game :=
  { running := false, units := [], target := (400, 300), hasTargetTexture := false }

/-- `Game::init()` (lines 157-210).  `videoOk`, `windowOk`, `rendererOk`
model the three fallible SDL setup calls: any failure aborts init
(returns `none`, i.e. `false` in C++).  `targetTexOk` models the target
BMP load, which is explicitly non-fatal.  On success, five units are
created at positions from `posSrc` (`rand()%800`, `rand()%600`), each
with its own texture-load outcome `unitTexOk k` and random weight
stream `drawSrc k`, and `running` becomes true. -/
def Game.init (g : Game) (videoOk windowOk rendererOk targetTexOk : Bool)
    (posSrc : ℕ → Int × Int) (unitTexOk : ℕ → Bool)
    (drawSrc : ℕ → ℕ → ℕ → ℕ → ℝ) : Option Game :=
  if videoOk then
    if windowOk then
      if rendererOk then
        some { g with
          hasTargetTexture := targetTexOk
          units := (List.range 5).map fun k =>
            Unit.create (posSrc k).1 (posSrc k).2 (unitTexOk k) (drawSrc k)
          running := true }
      else none
    else none
  else none

/-- One event's effect inside the `SDL_PollEvent` loop of
`Game::handleEvents` (lines 214-221): `SDL_QUIT` clears `running`;
`SDL_MOUSEBUTTONDOWN` overwrites `target` with the event's coordinates. -/
def Game.handleOne (g : Game) : Event → Game
  | .quit => { g with running := false }
  | .mouseDown ex ey => { g with target := (ex, ey) }
  | .other => g

/-- `Game::handleEvents()` (lines 212-222): drain the pending event queue
in order. -/
def Game.handleEvents (g : Game) (events : List Event) : Game :=
  events.foldl Game.handleOne g

/-- `Game::update()` (lines 224-228): update every unit, passing the
current target. -/
noncomputable def Game.update (g : Game) : Game :=
  { g with units := g.units.map fun u => u.update g.target }

/-- The body of the `while (game.isRunning())` loop in `main`
(lines 273-278), driven by a finite schedule of per-frame event batches:
`handleEvents(); update();` each frame (`render()` and `SDL_Delay(16)`
touch no simulation state).  Result: `some 0` when the loop exits
normally, `none` when the schedule ran out while still running. -/
noncomputable def gameLoop : Game → List (List Event) → Option Int
  | g, [] => if g.running then none else some 0
  | g, evs :: rest =>
    if g.running then gameLoop ((g.handleEvents evs).update) rest else some 0

/-- `main` (lines 265-282): construct a `Game`; if `init` fails print a
message and return `-1`; otherwise run the loop and return `0` after
`game.clean()`. -/
noncomputable def runMain (videoOk windowOk rendererOk targetTexOk : Bool)
    (posSrc : ℕ → Int × Int) (unitTexOk : ℕ → Bool)
    (drawSrc : ℕ → ℕ → ℕ → ℕ → ℝ) (frames : List (List Event)) : Option Int :=
  match Game.new.init videoOk windowOk rendererOk targetTexOk posSrc unitTexOk drawSrc with
  | none => some (-1)
  | some g => gameLoop g frames

/-- `Neuron::activate` returns `tanh` of bias plus the (input-indexed) dot
product. -/
lemma activate_eq (n : Neuron) (ins : List ℝ) :
    n.activate ins = Real.tanh (n.bias + ∑ i ∈ Finset.range ins.length,
      ins.getD i 0 * n.weights.getD i 0) := rfl

/-! ## Claims -/

/-- C1, counterexample: with a random source producing `1/2` on every
draw, the constructed `Neuron`'s bias is `0` — in particular it is not
the value any draw could have produced.  `Neuron::Neuron` initializes
`bias(0.0f)` in its member initializer list and never assigns a random
value to it, so the bias is not drawn from the uniform source at all. -/
theorem C1_cex_bias_not_drawn :
    (Neuron.create 4 fun _ => (1 : ℝ) / 2).bias = 0 ∧
    (Neuron.create 4 fun _ => (1 : ℝ) / 2).bias ≠ 1 / 2 := by
  refine ⟨rfl, ?_⟩
  norm_num [Neuron.create]

/-- Neuron `j` of layer `i` of a network (defaults past the end). -/
def neuronAt (net : NeuralNetwork) (i j : ℕ) : Neuron :=
  (net.layers.getD i []).getD j ⟨[], 0⟩

/-- C1 (amended): at network construction, every neuron's every weight
is a fresh draw from that neuron's own random source (weight `k` of
neuron `(i, j)` is draw `k` of stream `(i, j)` — all draws distinct and
independent), hence lies in `[-1, 1]` whenever the source's values do;
every bias is initialized to the constant `0`; and no operation mutates
them — the only member function, `activate`, returns the object
unchanged. -/
theorem C1_weights_random_bias_zero (T : List ℕ) (draw : ℕ → ℕ → ℕ → ℝ)
    (hr : ∀ i j k, -1 ≤ draw i j k ∧ draw i j k ≤ 1) (i j : ℕ)
    (hi : i < T.length - 1) (hj : j < T.getD (i + 1) 0) :
    neuronAt (NeuralNetwork.create T draw) i j =
      Neuron.create (T.getD i 0) (draw i j) ∧
    (neuronAt (NeuralNetwork.create T draw) i j).bias = 0 ∧
    (∀ k, k < (neuronAt (NeuralNetwork.create T draw) i j).weights.length →
      (neuronAt (NeuralNetwork.create T draw) i j).weights.getD k 0 = draw i j k ∧
      -1 ≤ (neuronAt (NeuralNetwork.create T draw) i j).weights.getD k 0 ∧
      (neuronAt (NeuralNetwork.create T draw) i j).weights.getD k 0 ≤ 1) ∧
    ∀ ins, ((neuronAt (NeuralNetwork.create T draw) i j).activateM ins).2 =
      neuronAt (NeuralNetwork.create T draw) i j := by
  have hL : (NeuralNetwork.create T draw).layers.length = T.length - 1 := by
    simp [NeuralNetwork.create]
  have hlayer : (NeuralNetwork.create T draw).layers.getD i [] =
      (List.range (T.getD (i + 1) 0)).map fun j' =>
        Neuron.create (T.getD i 0) (draw i j') := by
    rw [List.getD_eq_getElem _ _ (by rw [hL]; exact hi)]
    simp [NeuralNetwork.create]
  have hnr : neuronAt (NeuralNetwork.create T draw) i j =
      Neuron.create (T.getD i 0) (draw i j) := by
    rw [neuronAt, hlayer, List.getD_eq_getElem _ _ (by simpa using hj)]
    simp
  rw [hnr]
  refine ⟨rfl, rfl, fun k hk => ?_, fun ins => rfl⟩
  have hw : (Neuron.create (T.getD i 0) (draw i j)).weights.getD k 0 = draw i j k := by
    rw [List.getD_eq_getElem _ _ (by simpa [Neuron.create] using hk)]
    simp [Neuron.create]
  exact ⟨hw, by rw [hw]; exact (hr i j k).1, by rw [hw]; exact (hr i j k).2⟩

/-- C1, witness: the amended theorem at neuron `(0, 0)` of a network
with the game's topology `{4, 6, 2}` and the all-zero draw streams. -/
theorem C1_witness :
    neuronAt (NeuralNetwork.create [4, 6, 2] fun _ _ _ => (0 : ℝ)) 0 0 =
      Neuron.create 4 (fun _ => (0 : ℝ)) ∧
    (neuronAt (NeuralNetwork.create [4, 6, 2] fun _ _ _ => (0 : ℝ)) 0 0).bias = 0 ∧
    (∀ k, k < (neuronAt (NeuralNetwork.create [4, 6, 2] fun _ _ _ => (0 : ℝ))
        0 0).weights.length →
      (neuronAt (NeuralNetwork.create [4, 6, 2] fun _ _ _ => (0 : ℝ))
        0 0).weights.getD k 0 = 0 ∧
      -1 ≤ (neuronAt (NeuralNetwork.create [4, 6, 2] fun _ _ _ => (0 : ℝ))
        0 0).weights.getD k 0 ∧
      (neuronAt (NeuralNetwork.create [4, 6, 2] fun _ _ _ => (0 : ℝ))
        0 0).weights.getD k 0 ≤ 1) ∧
    ∀ ins, ((neuronAt (NeuralNetwork.create [4, 6, 2] fun _ _ _ => (0 : ℝ))
        0 0).activateM ins).2 =
      neuronAt (NeuralNetwork.create [4, 6, 2] fun _ _ _ => (0 : ℝ)) 0 0 :=
  C1_weights_random_bias_zero [4, 6, 2] (fun _ _ _ => 0)
    (fun _ _ _ => by norm_num) 0 0 (by decide) (by decide)

/-- C2: for a topology of length ≥ 2 with positive entries, the
constructed network has `len(T) - 1` layers; layer `i` has `T[i+1]`
neurons, each with a weight vector of length `T[i]`. -/
theorem C2_network_shape (T : List ℕ) (draw : ℕ → ℕ → ℕ → ℝ)
    (hlen : 2 ≤ T.length) (hpos : ∀ k ∈ T, 0 < k) :
    (NeuralNetwork.create T draw).layers.length = T.length - 1 ∧
    ∀ i, i < T.length - 1 →
      ((NeuralNetwork.create T draw).layers.getD i []).length = T.getD (i + 1) 0 ∧
      ∀ nr ∈ (NeuralNetwork.create T draw).layers.getD i [],
        nr.weights.length = T.getD i 0 := by
  have hL : (NeuralNetwork.create T draw).layers.length = T.length - 1 := by
    simp [NeuralNetwork.create]
  refine ⟨hL, fun i hi => ?_⟩
  have hgetD : (NeuralNetwork.create T draw).layers.getD i [] =
      (List.range (T.getD (i + 1) 0)).map fun j =>
        Neuron.create (T.getD i 0) (draw i j) := by
    rw [List.getD_eq_getElem _ _ (by rw [hL]; exact hi)]
    simp [NeuralNetwork.create]
  rw [hgetD]
  refine ⟨by simp, fun nr hnr => ?_⟩
  simp only [List.mem_map, List.mem_range] at hnr
  obtain ⟨j, _, rfl⟩ := hnr
  simp [Neuron.create]

/-- C2, witness: the shape theorem applied to the topology `{4, 6, 2}`
the game actually uses. -/
theorem C2_witness :
    (NeuralNetwork.create [4, 6, 2] fun _ _ _ => (0 : ℝ)).layers.length = 2 ∧
    ∀ i, i < 2 →
      ((NeuralNetwork.create [4, 6, 2] fun _ _ _ => (0 : ℝ)).layers.getD i []).length =
        [4, 6, 2].getD (i + 1) 0 ∧
      ∀ nr ∈ (NeuralNetwork.create [4, 6, 2] fun _ _ _ => (0 : ℝ)).layers.getD i [],
        nr.weights.length = [4, 6, 2].getD i 0 :=
  C2_network_shape [4, 6, 2] (fun _ _ _ => 0) (by decide) (by decide)

/-- C3: feeding any input vector of the topology's input width through a
constructed network yields a vector whose length is the last topology
element, every entry strictly inside `(-1, 1)` (the range of `tanh`). -/
theorem C3_feedForward_range (T : List ℕ) (draw : ℕ → ℕ → ℕ → ℝ) (inputs : List ℝ)
    (hlen : 2 ≤ T.length) (hin : inputs.length = T.getD 0 0) :
    ((NeuralNetwork.create T draw).feedForward inputs).length =
      T.getD (T.length - 1) 0 ∧
    ∀ v ∈ (NeuralNetwork.create T draw).feedForward inputs, -1 < v ∧ v < 1 := by
  obtain ⟨L2, hL2⟩ : ∃ m, T.length - 1 = m + 1 := ⟨T.length - 2, by omega⟩
  have hlayers : (NeuralNetwork.create T draw).layers =
      ((List.range L2).map fun i => (List.range (T.getD (i + 1) 0)).map fun j =>
        Neuron.create (T.getD i 0) (draw i j)) ++
      [(List.range (T.getD (L2 + 1) 0)).map fun j =>
        Neuron.create (T.getD L2 0) (draw L2 j)] := by
    simp only [NeuralNetwork.create]
    rw [hL2, List.range_succ, List.map_append, List.map_cons, List.map_nil]
  rw [feedForward_eq_foldl, hlayers, List.foldl_append, List.foldl_cons, List.foldl_nil]
  constructor
  · have h1 : L2 + 1 = T.length - 1 := hL2.symm
    simp [h1]
  · intro v hv
    simp only [List.mem_map] at hv
    obtain ⟨nr, _, rfl⟩ := hv
    rw [activate_eq]
    exact ⟨neg_one_lt_tanh _, tanh_lt_one _⟩

/-- C3, witness: the range theorem applied to the game's topology
`{4, 6, 2}` and the all-zero input vector of width 4. -/
theorem C3_witness :
    ((NeuralNetwork.create [4, 6, 2] fun _ _ _ => (0 : ℝ)).feedForward
        [0, 0, 0, 0]).length = [4, 6, 2].getD 2 0 ∧
    ∀ v ∈ (NeuralNetwork.create [4, 6, 2] fun _ _ _ => (0 : ℝ)).feedForward
        [0, 0, 0, 0], -1 < v ∧ v < 1 :=
  C3_feedForward_range [4, 6, 2] (fun _ _ _ => 0) [0, 0, 0, 0] (by decide) (by simp)

/-- C4: the forward pass is deterministic and stateless — calling
`feedForward` leaves the network exactly as it was (the C++ loop never
writes a field), so a second call on the post-call state returns the
same output vector as the first. -/
theorem C4_feedForward_deterministic (net : NeuralNetwork) (inputs : List ℝ) :
    ((net.feedForwardM inputs).2.feedForwardM inputs).1 = (net.feedForwardM inputs).1 ∧
    (net.feedForwardM inputs).2 = net := by
  have hsnd : (net.feedForwardM inputs).2 = net := by
    simp only [NeuralNetwork.feedForwardM, layersActM_eq]
  exact ⟨by rw [hsnd], hsnd⟩

/-- The post-update x is the sequential clamp of the raw integrated x
into `[0, 760]` (box width 40). -/
lemma update_x_eq (u : Unit) (t : Int × Int) (hw : u.rect.w = 40) :
    (u.update t).x =
      if u.rawX t < 0 then 0 else if u.rawX t > 760 then 760 else u.rawX t := by
  simp only [Unit.update, hw]
  norm_num
  rcases lt_or_le (u.rawX t) 0 with h | h
  · rw [if_pos h, if_pos h, if_neg (by norm_num)]
  · rw [if_neg (not_lt.mpr h), if_neg (not_lt.mpr h)]

/-- The post-update y is the sequential clamp of the raw integrated y
into `[0, 560]` (box height 40). -/
lemma update_y_eq (u : Unit) (t : Int × Int) (hh : u.rect.h = 40) :
    (u.update t).y =
      if u.rawY t < 0 then 0 else if u.rawY t > 560 then 560 else u.rawY t := by
  simp only [Unit.update, hh]
  norm_num
  rcases lt_or_le (u.rawY t) 0 with h | h
  · rw [if_pos h, if_pos h, if_neg (by norm_num)]
  · rw [if_neg (not_lt.mpr h), if_neg (not_lt.mpr h)]

/-- What the two sequential bound checks do to one coordinate. -/
lemma clampIf_spec (a B : ℝ) (hB : 0 ≤ B) :
    (0 ≤ (if a < 0 then 0 else if a > B then B else a)) ∧
    ((if a < 0 then 0 else if a > B then B else a) ≤ B) ∧
    (a < 0 → (if a < 0 then 0 else if a > B then B else a) = 0) ∧
    (B < a → (if a < 0 then 0 else if a > B then B else a) = B) := by
  refine ⟨?_, ?_, fun h => if_pos h, fun h => ?_⟩
  · split_ifs with h1 h2
    · exact le_refl 0
    · exact hB
    · exact not_lt.mp h1
  · split_ifs with h1 h2
    · exact hB
    · exact le_refl B
    · exact not_lt.mp h2
  · rw [if_neg (by linarith), if_pos h]

/-- C5: after `Unit::update` the position lies in `[0, 760] × [0, 560]`
(the unit's box is 40×40 inside the 800×600 field), and whenever the raw
integrated coordinate falls outside that range the post-update
coordinate is exactly the nearest bound. -/
theorem C5_update_clamped (u : Unit) (t : Int × Int)
    (hw : u.rect.w = 40) (hh : u.rect.h = 40) :
    (0 ≤ (u.update t).x ∧ (u.update t).x ≤ 760 ∧
     0 ≤ (u.update t).y ∧ (u.update t).y ≤ 560) ∧
    (u.rawX t < 0 → (u.update t).x = 0) ∧
    (760 < u.rawX t → (u.update t).x = 760) ∧
    (u.rawY t < 0 → (u.update t).y = 0) ∧
    (560 < u.rawY t → (u.update t).y = 560) := by
  rw [update_x_eq u t hw, update_y_eq u t hh]
  obtain ⟨hx0, hx1, hx2, hx3⟩ := clampIf_spec (u.rawX t) 760 (by norm_num)
  obtain ⟨hy0, hy1, hy2, hy3⟩ := clampIf_spec (u.rawY t) 560 (by norm_num)
  exact ⟨⟨hx0, hx1, hy0, hy1⟩, hx2, hx3, hy2, hy3⟩

/-- A concrete unit (all-zero weight draws, no texture) used to
instantiate theorems with hypotheses. -/
noncomputable def sampleUnit : Unit :=
  Unit.create 100 100 false fun _ _ _ => 0

/-- C5, witness: the clamp theorem applied to a concrete unit and the
default target. -/
theorem C5_witness :
    (0 ≤ (sampleUnit.update (400, 300)).x ∧ (sampleUnit.update (400, 300)).x ≤ 760 ∧
     0 ≤ (sampleUnit.update (400, 300)).y ∧ (sampleUnit.update (400, 300)).y ≤ 560) ∧
    (sampleUnit.rawX (400, 300) < 0 → (sampleUnit.update (400, 300)).x = 0) ∧
    (760 < sampleUnit.rawX (400, 300) → (sampleUnit.update (400, 300)).x = 760) ∧
    (sampleUnit.rawY (400, 300) < 0 → (sampleUnit.update (400, 300)).y = 0) ∧
    (560 < sampleUnit.rawY (400, 300) → (sampleUnit.update (400, 300)).y = 560) :=
  C5_update_clamped sampleUnit (400, 300) rfl rfl

/-- Second definition for the refinement claim C6, following the spec's
words: the input vector `[distance/800, angle/π, speed/5, 0]` with
`distance = sqrt((tx-x)² + (ty-y)²)` and `angle = atan2(ty-y, tx-x)`. -/
noncomputable def spec_inputVector (u : Unit) (t : Int × Int) : List ℝ :=
  [Real.sqrt (((t.1 : ℝ) - u.x) ^ 2 + ((t.2 : ℝ) - u.y) ^ 2) / 800,
   atan2 ((t.2 : ℝ) - u.y) ((t.1 : ℝ) - u.x) / Real.pi,
   u.speed / 5,
   0]

/-- Spec's words: `new speed = o0 * 5` where `[o0, o1]` is the network
output on the spec's input vector. -/
noncomputable def spec_newSpeed (u : Unit) (t : Int × Int) : ℝ :=
  (u.brain.feedForward (spec_inputVector u t)).getD 0 0 * 5

/-- Spec's words: `direction = o1 * π`. -/
noncomputable def spec_newDirection (u : Unit) (t : Int × Int) : ℝ :=
  (u.brain.feedForward (spec_inputVector u t)).getD 1 0 * Real.pi

/-- Spec's words: `x += cos(direction) * speed`. -/
noncomputable def spec_rawX (u : Unit) (t : Int × Int) : ℝ :=
  u.x + Real.cos (spec_newDirection u t) * spec_newSpeed u t

/-- Spec's words: `y += sin(direction) * speed`. -/
noncomputable def spec_rawY (u : Unit) (t : Int × Int) : ℝ :=
  u.y + Real.sin (spec_newDirection u t) * spec_newSpeed u t

/-- The code's input vector is exactly the spec's input vector. -/
lemma nnInputs_eq_spec (u : Unit) (t : Int × Int) :
    u.nnInputs t = spec_inputVector u t := by
  simp [Unit.nnInputs, spec_inputVector, pow_two]

/-- The updated speed field is the code's `outputs[0] * 5`. -/
lemma update_speed_eq (u : Unit) (t : Int × Int) :
    (u.update t).speed = u.newSpeed t := rfl

/-- C6: `Unit::update` feeds the network exactly the spec's input vector
`[distance/800, angle/π, speed/5, 0]`, stores `o0 * 5` as the new
speed, and moves by `cos(o1·π)·(o0·5)` in x and `sin(o1·π)·(o0·5)` in y
(then clamps to the playfield, claim C5). -/
theorem C6_update_dataflow (u : Unit) (t : Int × Int)
    (hw : u.rect.w = 40) (hh : u.rect.h = 40) :
    u.nnInputs t = spec_inputVector u t ∧
    (u.update t).speed = spec_newSpeed u t ∧
    (u.update t).x = (if spec_rawX u t < 0 then 0 else
      if spec_rawX u t > 760 then 760 else spec_rawX u t) ∧
    (u.update t).y = (if spec_rawY u t < 0 then 0 else
      if spec_rawY u t > 560 then 560 else spec_rawY u t) := by
  have h1 := nnInputs_eq_spec u t
  have hspeed : u.newSpeed t = spec_newSpeed u t := by
    rw [Unit.newSpeed, spec_newSpeed, h1]
  have hdir : u.newDirection t = spec_newDirection u t := by
    rw [Unit.newDirection, spec_newDirection, h1]
  have hrx : u.rawX t = spec_rawX u t := by
    rw [Unit.rawX, spec_rawX, hspeed, hdir]
  have hry : u.rawY t = spec_rawY u t := by
    rw [Unit.rawY, spec_rawY, hspeed, hdir]
  exact ⟨h1, by rw [update_speed_eq, hspeed],
    by rw [update_x_eq u t hw, hrx], by rw [update_y_eq u t hh, hry]⟩

/-- C6, witness: the dataflow theorem applied to a concrete unit and the
default target. -/
theorem C6_witness :
    sampleUnit.nnInputs (400, 300) = spec_inputVector sampleUnit (400, 300) ∧
    (sampleUnit.update (400, 300)).speed = spec_newSpeed sampleUnit (400, 300) ∧
    (sampleUnit.update (400, 300)).x = (if spec_rawX sampleUnit (400, 300) < 0 then 0 else
      if spec_rawX sampleUnit (400, 300) > 760 then 760
      else spec_rawX sampleUnit (400, 300)) ∧
    (sampleUnit.update (400, 300)).y = (if spec_rawY sampleUnit (400, 300) < 0 then 0 else
      if spec_rawY sampleUnit (400, 300) > 560 then 560
      else spec_rawY sampleUnit (400, 300)) :=
  C6_update_dataflow sampleUnit (400, 300) rfl rfl

/-- The input-indexed dot product of `Neuron::activate` equals the
truncating zip product whenever the input is no longer than the weight
vector (every defined-behaviour call). -/
lemma sum_range_getD_eq_zipWith (ins ws : List ℝ) (h : ins.length ≤ ws.length) :
    ∑ i ∈ Finset.range ins.length, ins.getD i 0 * ws.getD i 0 =
      (List.zipWith (fun a b => a * b) ins ws).sum := by
  induction ins generalizing ws with
  | nil => simp
  | cons a as ih =>
    cases ws with
    | nil => simp at h
    | cons b bs =>
      rw [List.zipWith_cons_cons, List.sum_cons, List.length_cons,
        Finset.sum_range_succ']
      simp only [List.getD_cons_zero, List.getD_cons_succ]
      rw [ih bs (by simpa using h)]
      ring

/-- C7, counterexample: `Neuron::activate` contains no assertion or
length check — invoked with a 1-element input on a 4-weight neuron (a
length mismatch) it silently returns an ordinary value, `tanh` of the
partial dot product, instead of failing fast. -/
theorem C7_cex_silent_compute :
    (Neuron.create 4 fun _ => (1 : ℝ)).activate [1 / 2] = Real.tanh (1 / 2) := by
  rw [activate_eq]
  norm_num [Neuron.create, List.range_succ]

/-- C7 (amended): `Neuron::activate` performs no length validation: for
any input no longer than the weight vector (every defined-behaviour
call) it silently computes `tanh(bias + Σ inputs[i]·weights[i])` over
the input's indices, ignoring any extra weights; no fault occurs.  (An
input longer than the weight vector makes the loop read past the vector
— undefined behaviour in C++.) -/
theorem C7_no_length_check (n : Neuron) (ins : List ℝ)
    (h : ins.length ≤ n.weights.length) :
    n.activate ins =
      Real.tanh (n.bias + (List.zipWith (fun a b => a * b) ins n.weights).sum) := by
  rw [activate_eq, sum_range_getD_eq_zipWith ins n.weights h]

/-- C7, witness: the amended theorem at a 4-weight neuron and a
1-element input. -/
theorem C7_witness :
    (Neuron.create 4 fun _ => (1 : ℝ)).activate [1 / 3] =
      Real.tanh ((Neuron.create 4 fun _ => (1 : ℝ)).bias +
        (List.zipWith (fun a b => a * b) [1 / 3]
          (Neuron.create 4 fun _ => (1 : ℝ)).weights).sum) :=
  C7_no_length_check _ _ (by simp [Neuron.create])

/-- The coordinates of the last mouse-button-down event of a batch, if
any. -/
def lastPress : List Event → Option (Int × Int)
  | [] => none
  | e :: rest =>
    match lastPress rest with
    | some p => some p
    | none =>
      match e with
      | .mouseDown ex ey => some (ex, ey)
      | _ => none

/-- Draining an event batch leaves the target at the last press's
coordinates (or unchanged if the batch holds no press). -/
lemma handleEvents_target (g : Game) (evs : List Event) :
    (g.handleEvents evs).target = (lastPress evs).getD g.target := by
  induction evs generalizing g with
  | nil => rfl
  | cons e rest ih =>
    show ((g.handleOne e).handleEvents rest).target = _
    rw [ih]
    cases hrest : lastPress rest with
    | some p => simp [lastPress, hrest]
    | none => cases e <;> simp [lastPress, hrest, Game.handleOne]

/-- C8: a batch of pending events whose last press carries `(px, py)`
leaves the target at exactly `(px, py)`; the agent-update phase does not
touch the target, and on the immediately following `Game::update` every
unit is updated with exactly that target value. -/
theorem C8_click_sets_target (g : Game) (evs : List Event) (px py : Int)
    (h : lastPress evs = some (px, py)) :
    (g.handleEvents evs).target = (px, py) ∧
    ((g.handleEvents evs).update).target = (px, py) ∧
    ((g.handleEvents evs).update).units =
      (g.handleEvents evs).units.map fun u => u.update (px, py) := by
  have ht : (g.handleEvents evs).target = (px, py) := by
    rw [handleEvents_target, h]
    rfl
  have hu : ((g.handleEvents evs).update).target = (g.handleEvents evs).target := rfl
  refine ⟨ht, by rw [hu, ht], ?_⟩
  show (g.handleEvents evs).units.map
      (fun u => u.update (g.handleEvents evs).target) = _
  rw [ht]

/-- C8, witness: with two presses pending in one batch, the later press
`(3, 4)` wins and is the value every unit is updated with. -/
theorem C8_witness :
    (Game.new.handleEvents
        [Event.mouseDown 120 80, Event.other, Event.mouseDown 3 4]).target = (3, 4) ∧
    ((Game.new.handleEvents
        [Event.mouseDown 120 80, Event.other, Event.mouseDown 3 4]).update).target =
      (3, 4) ∧
    ((Game.new.handleEvents
        [Event.mouseDown 120 80, Event.other, Event.mouseDown 3 4]).update).units =
      (Game.new.handleEvents
        [Event.mouseDown 120 80, Event.other, Event.mouseDown 3 4]).units.map
        fun u => u.update (3, 4) :=
  C8_click_sets_target Game.new
    [Event.mouseDown 120 80, Event.other, Event.mouseDown 3 4] 3 4 rfl

/-- A drained batch can clear `running` only if it was already cleared or
the batch contains `SDL_QUIT` (a mouse press only writes the target). -/
lemma running_false_of_handleEvents (evs : List Event) :
    ∀ g : Game, (g.handleEvents evs).running = false →
      g.running = false ∨ Event.quit ∈ evs := by
  induction evs with
  | nil => exact fun g h => Or.inl h
  | cons e rest ih =>
    intro g h
    rw [Game.handleEvents, List.foldl_cons] at h
    rcases ih (g.handleOne e) h with h' | h'
    · cases e with
      | quit => exact Or.inr (List.mem_cons_self _ _)
      | mouseDown ex ey => exact Or.inl h'
      | other => exact Or.inl h'
    · exact Or.inr (List.mem_cons_of_mem _ h')

/-- If the loop exits on a running game, the exit value is 0 and some
frame's batch contained `SDL_QUIT`. -/
lemma gameLoop_exit (frames : List (List Event)) :
    ∀ (g : Game) (r : Int), g.running = true → gameLoop g frames = some r →
      r = 0 ∧ ∃ evs ∈ frames, Event.quit ∈ evs := by
  induction frames with
  | nil =>
    intro g r hg h
    rw [gameLoop, if_pos hg] at h
    cases h
  | cons evs rest ih =>
    intro g r hg h
    rw [gameLoop, if_pos hg] at h
    cases hg' : ((g.handleEvents evs).update).running with
    | true =>
      obtain ⟨hr0, evs', hm, hq⟩ := ih _ r hg' h
      exact ⟨hr0, evs', List.mem_cons_of_mem _ hm, hq⟩
    | false =>
      have hq : Event.quit ∈ evs := by
        have hpre : (g.handleEvents evs).running = false := hg'
        rcases running_false_of_handleEvents evs g hpre with h' | h'
        · rw [hg] at h'
          cases h'
        · exact h'
      have hr0 : r = 0 := by
        cases rest with
        | nil =>
          rw [gameLoop, if_neg (by rw [hg']; exact Bool.false_ne_true)] at h
          cases h
          rfl
        | cons b bs =>
          rw [gameLoop, if_neg (by rw [hg']; exact Bool.false_ne_true)] at h
          cases h
          rfl
      exact ⟨hr0, evs, List.mem_cons_self _ _, hq⟩

/-- C9: whenever the modelled `main` returns an exit code, it is 0 with
all three SDL setup steps having succeeded and a close event having been
drained, or -1 with some setup step having failed; these are the only
exit paths (the target-texture load outcome never affects the exit
code). -/
theorem C9_exit_codes (videoOk windowOk rendererOk targetTexOk : Bool)
    (posSrc : ℕ → Int × Int) (unitTexOk : ℕ → Bool)
    (drawSrc : ℕ → ℕ → ℕ → ℕ → ℝ) (frames : List (List Event)) (r : Int)
    (h : runMain videoOk windowOk rendererOk targetTexOk posSrc unitTexOk
      drawSrc frames = some r) :
    ((videoOk && windowOk && rendererOk) = true ∧ r = 0 ∧
      ∃ evs ∈ frames, Event.quit ∈ evs) ∨
    ((videoOk && windowOk && rendererOk) = false ∧ r = -1) := by
  cases videoOk with
  | false =>
    right
    simp only [runMain, Game.init, Bool.false_eq_true, if_false] at h
    cases h
    exact ⟨rfl, rfl⟩
  | true =>
    cases windowOk with
    | false =>
      right
      simp only [runMain, Game.init, Bool.false_eq_true, if_false, if_true] at h
      cases h
      exact ⟨rfl, rfl⟩
    | true =>
      cases rendererOk with
      | false =>
        right
        simp only [runMain, Game.init, Bool.false_eq_true, if_false, if_true] at h
        cases h
        exact ⟨rfl, rfl⟩
      | true =>
        left
        simp only [runMain, Game.init, if_true] at h
        obtain ⟨hr0, evs, hm, hq⟩ := gameLoop_exit frames _ r rfl h
        exact ⟨rfl, hr0, evs, hm, hq⟩

/-- C9, witness: the exit-code theorem at a run whose video init fails
(exit code -1, no frames executed). -/
theorem C9_witness :
    ((false && true && true) = true ∧ (-1 : Int) = 0 ∧
      ∃ evs ∈ ([] : List (List Event)), Event.quit ∈ evs) ∨
    ((false && true && true) = false ∧ (-1 : Int) = -1) :=
  C9_exit_codes false true true true (fun _ => (0, 0)) (fun _ => false)
    (fun _ _ _ _ => 0) [] (-1) rfl

/-- No press in a batch means `lastPress` finds nothing. -/
lemma lastPress_eq_none (evs : List Event) (h : ∀ e ∈ evs, e.isPress = false) :
    lastPress evs = none := by
  induction evs with
  | nil => rfl
  | cons e rest ih =>
    have hrest := ih fun x hx => h x (List.mem_cons_of_mem _ hx)
    have he := h e (List.mem_cons_self _ _)
    cases e with
    | quit => simp [lastPress, hrest]
    | mouseDown ex ey => simp [Event.isPress] at he
    | other => simp [lastPress, hrest]

/-- C10: a newly constructed `Game` has target exactly `(400, 300)`, and
only pointer-press handling ever changes the target: the agent-update
phase, a batch of press-free events, and `init` all leave it unchanged. -/
theorem C10_initial_target :
    Game.new.target = (400, 300) ∧
    (∀ g : Game, (Game.update g).target = g.target) ∧
    (∀ (g : Game) (evs : List Event),
      (∀ e ∈ evs, e.isPress = false) → (g.handleEvents evs).target = g.target) ∧
    (∀ (g g' : Game) (v w rk tk : Bool) (p : ℕ → Int × Int) (utk : ℕ → Bool)
      (d : ℕ → ℕ → ℕ → ℕ → ℝ),
      g.init v w rk tk p utk d = some g' → g'.target = g.target) := by
  refine ⟨rfl, fun g => rfl, fun g evs h => ?_, ?_⟩
  · rw [handleEvents_target, lastPress_eq_none evs h]
    rfl
  · intro g g' v w rk tk p utk d h
    cases v with
    | false => simp [Game.init] at h
    | true =>
      cases w with
      | false => simp [Game.init] at h
      | true =>
        cases rk with
        | false => simp [Game.init] at h
        | true =>
          simp only [Game.init, if_true, Option.some.injEq] at h
          rw [← h]

/-- C10, witness: the theorem's parts applied to the fresh game and a
press-free batch. -/
theorem C10_witness :
    Game.new.target = (400, 300) ∧
    (Game.update Game.new).target = (400, 300) ∧
    (Game.new.handleEvents [Event.quit, Event.other]).target = (400, 300) := by
  obtain ⟨h1, h2, h3, _⟩ := C10_initial_target
  exact ⟨h1, by rw [h2 Game.new, h1],
    by rw [h3 Game.new [Event.quit, Event.other] (by decide), h1]⟩

end PJ
